import Mathlib

/-!
Verification of the request-signing and device-operation layer of a small
home-automation service (source file src/utils/tuya.ts).  The TypeScript
source is shallowly embedded: JavaScript objects become association lists,
the JSON values that travel over the wire become an inductive type with an
executable parser and renderer, the external crypto library (SHA-256 and
HMAC-SHA256 from node:crypto) is implemented concretely over byte lists, and
network input-output is modelled by an explicit oracle from requests to
responses together with the list of requests the code issues, in order.
-/

namespace Tuya

mutual

/-- JSON values as they appear on the wire.  Numbers are modelled as
integers, which covers every numeric value the embedded protocol uses.
Arrays and objects carry their own list types so that every function on
JSON values is plain structural recursion. -/
inductive Json where
  | null : Json
  | bool (b : Bool) : Json
  | num (n : Int) : Json
  | str (s : String) : Json
  | arr (elems : JsonList) : Json
  | obj (fields : JsonFields) : Json

/-- Sequences of JSON values (array elements). -/
inductive JsonList where
  | nil : JsonList
  | cons (hd : Json) (tl : JsonList) : JsonList

/-- Sequences of key-value bindings (object fields), in insertion order. -/
inductive JsonFields where
  | nil : JsonFields
  | cons (k : String) (v : Json) (tl : JsonFields) : JsonFields

end

/-- Conversion of an ordinary list of JSON values into a JsonList. -/
def JsonList.ofList : List Json → JsonList
  | [] => .nil
  | x :: xs => .cons x (JsonList.ofList xs)

/-- Conversion of a JsonList into an ordinary list of JSON values. -/
def JsonList.toList : JsonList → List Json
  | .nil => []
  | .cons x xs => x :: JsonList.toList xs

/-- Conversion of a list of pairs into object fields. -/
def JsonFields.ofList : List (String × Json) → JsonFields
  | [] => .nil
  | (k, v) :: xs => .cons k v (JsonFields.ofList xs)

/-- Conversion of object fields into a list of pairs. -/
def JsonFields.toList : JsonFields → List (String × Json)
  | .nil => []
  | .cons k v xs => (k, v) :: JsonFields.toList xs

/-- Lookup of a key among object fields; the first binding wins. -/
def JsonFields.findVal : JsonFields → String → Option Json
  | .nil, _ => none
  | .cons k v tl, key => if k = key then some v else JsonFields.findVal tl key

/-- Property read j.k on a JSON value, as JavaScript property access:
defined only on objects, absent keys give none (the model of the
JavaScript undefined). -/
def jGet (j : Json) (k : String) : Option Json :=
  match j with
  | .obj fs => fs.findVal k
  | _ => none

/-- Truthiness of a JSON value under the JavaScript Boolean coercion. -/
def Json.truthy : Json → Bool
  | .null => false
  | .bool b => b
  | .num n => n != 0
  | .str s => s != ""
  | .arr _ => true
  | .obj _ => true

/-- Truthiness of a possibly-absent value: the JavaScript undefined is falsy. -/
def truthy : Option Json → Bool
  | none => false
  | some j => j.truthy

/-- Model of the JavaScript String() coercion used by template literals and
string concatenation.  Only primitive values reach the coerced positions in
the embedded code; composite values are collapsed to the object default. -/
def jsShow : Json → String
  | .null => "null"
  | .bool b => if b then "true" else "false"
  | .num n => toString n
  | .str s => s
  | .arr _ => "[object Array]"
  | .obj _ => "[object Object]"

/-- Coercion of a possibly-absent value inside a template literal: the
JavaScript undefined prints as the word undefined. -/
def jsShowO : Option Json → String
  | none => "undefined"
  | some j => jsShow j

/-- Escape of one character inside a JSON string literal, as JSON.stringify
emits it for the characters that occur in the modelled values. -/
def escChar (c : Char) : String :=
  if c = '"' then "\\\""
  else if c = '\\' then "\\\\"
  else if c = '\n' then "\\n"
  else if c = '\r' then "\\r"
  else if c = '\t' then "\\t"
  else String.singleton c

/-- Rendering of a string as a JSON string literal, with escaping. -/
def renderString (s : String) : String :=
  "\"" ++ String.join (s.data.map escChar) ++ "\""

mutual

/-- Model of JSON.stringify on the embedded JSON values. -/
def Json.render : Json → String
  | .null => "null"
  | .bool b => if b then "true" else "false"
  | .num n => toString n
  | .str s => renderString s
  | .arr xs => "[" ++ JsonList.renderElems xs ++ "]"
  | .obj fs => "\x7b" ++ JsonFields.renderFields fs ++ "\x7d"

/-- Comma-separated rendering of array elements. -/
def JsonList.renderElems : JsonList → String
  | .nil => ""
  | .cons x .nil => Json.render x
  | .cons x (.cons y tl) => Json.render x ++ "," ++ JsonList.renderElems (.cons y tl)

/-- Comma-separated rendering of object fields. -/
def JsonFields.renderFields : JsonFields → String
  | .nil => ""
  | .cons k v .nil => renderString k ++ ":" ++ Json.render v
  | .cons k v (.cons k2 v2 tl) =>
      renderString k ++ ":" ++ Json.render v ++ "," ++ JsonFields.renderFields (.cons k2 v2 tl)

end

/-- JSON whitespace recognizer. -/
def isWsChar (c : Char) : Bool :=
  c = ' ' || c = '\n' || c = '\t' || c = '\r'

/-- Discard leading JSON whitespace. -/
def skipWs : List Char → List Char
  | [] => []
  | c :: cs => if isWsChar c then skipWs cs else c :: cs

/-- Consume an expected literal character sequence. -/
def matchLit : List Char → List Char → Option (List Char)
  | [], cs => some cs
  | _, [] => none
  | l :: ls, c :: cs => if c = l then matchLit ls cs else none

/-- Parse the body of a JSON string literal, positioned after the opening
quote; handles the escape sequences that occur in the modelled values. -/
def parseStringBody : List Char → Option (String × List Char)
  | [] => none
  | c :: cs =>
    if c = '"' then some ("", cs)
    else if c = '\\' then
      match cs with
      | [] => none
      | e :: cs2 =>
        let d : Option Char :=
          if e = '"' then some '"'
          else if e = '\\' then some '\\'
          else if e = '/' then some '/'
          else if e = 'n' then some '\n'
          else if e = 't' then some '\t'
          else if e = 'r' then some '\r'
          else none
        match d with
        | none => none
        | some dc =>
          match parseStringBody cs2 with
          | none => none
          | some (s, rest) => some (String.singleton dc ++ s, rest)
    else
      match parseStringBody cs with
      | none => none
      | some (s, rest) => some (String.singleton c ++ s, rest)

/-- Take a maximal run of decimal digits, as digit values. -/
def takeDigits : List Char → (List Nat × List Char)
  | [] => ([], [])
  | c :: cs =>
    if c.isDigit then
      let r := takeDigits cs
      ((c.toNat - 48) :: r.1, r.2)
    else ([], c :: cs)

/-- Numeric value of a digit run. -/
def digitsVal (ds : List Nat) : Nat := ds.foldl (fun a d => 10 * a + d) 0

mutual

/-- Fuel-indexed JSON parser for one value; integer numerals only, which
covers every payload the embedded protocol exchanges. -/
def parseVal : Nat → List Char → Option (Json × List Char)
  | 0, _ => none
  | fuel + 1, cs0 =>
    match skipWs cs0 with
    | [] => none
    | c :: cs =>
      if c = '"' then
        match parseStringBody cs with
        | none => none
        | some (s, rest) => some (.str s, rest)
      else if c = Char.ofNat 123 then parseObjBody fuel (skipWs cs)
      else if c = '[' then parseArrBody fuel (skipWs cs)
      else if c = 't' then
        match matchLit ['r', 'u', 'e'] cs with
        | none => none
        | some rest => some (.bool true, rest)
      else if c = 'f' then
        match matchLit ['a', 'l', 's', 'e'] cs with
        | none => none
        | some rest => some (.bool false, rest)
      else if c = 'n' then
        match matchLit ['u', 'l', 'l'] cs with
        | none => none
        | some rest => some (.null, rest)
      else if c = '-' then
        match takeDigits cs with
        | ([], _) => none
        | (ds, rest) => some (.num (-(digitsVal ds : Int)), rest)
      else if c.isDigit then
        match takeDigits (c :: cs) with
        | ([], _) => none
        | (ds, rest) => some (.num (digitsVal ds), rest)
      else none

/-- Parse an array body, positioned after the opening bracket. -/
def parseArrBody : Nat → List Char → Option (Json × List Char)
  | 0, _ => none
  | fuel + 1, cs =>
    match cs with
    | [] => none
    | c :: cs2 =>
      if c = ']' then some (.arr .nil, cs2)
      else
        match parseArrItems fuel (c :: cs2) with
        | none => none
        | some (xs, rest) => some (.arr xs, rest)

/-- Parse one-or-more comma-separated array elements and the closing
bracket. -/
def parseArrItems : Nat → List Char → Option (JsonList × List Char)
  | 0, _ => none
  | fuel + 1, cs =>
    match parseVal fuel cs with
    | none => none
    | some (j, rest) =>
      match skipWs rest with
      | [] => none
      | c :: rest2 =>
        if c = ',' then
          match parseArrItems fuel rest2 with
          | none => none
          | some (tl, rest3) => some (.cons j tl, rest3)
        else if c = ']' then some (.cons j .nil, rest2)
        else none

/-- Parse an object body, positioned after the opening brace. -/
def parseObjBody : Nat → List Char → Option (Json × List Char)
  | 0, _ => none
  | fuel + 1, cs =>
    match cs with
    | [] => none
    | c :: cs2 =>
      if c = Char.ofNat 125 then some (.obj .nil, cs2)
      else
        match parseObjItems fuel (c :: cs2) with
        | none => none
        | some (fs, rest) => some (.obj fs, rest)

/-- Parse one-or-more comma-separated object members and the closing
brace. -/
def parseObjItems : Nat → List Char → Option (JsonFields × List Char)
  | 0, _ => none
  | fuel + 1, cs =>
    match cs with
    | [] => none
    | c :: cs2 =>
      if c = '"' then
        match parseStringBody cs2 with
        | none => none
        | some (k, rest) =>
          match skipWs rest with
          | [] => none
          | c2 :: rest2 =>
            if c2 = ':' then
              match parseVal fuel rest2 with
              | none => none
              | some (v, rest3) =>
                match skipWs rest3 with
                | [] => none
                | c3 :: rest4 =>
                  if c3 = ',' then
                    match parseObjItems fuel (skipWs rest4) with
                    | none => none
                    | some (tl, rest5) => some (.cons k v tl, rest5)
                  else if c3 = Char.ofNat 125 then some (.cons k v .nil, rest4)
                  else none
            else none
      else none

end

/-- Model of JSON.parse restricted to the value forms the platform
exchanges; the fuel majorizes the recursion depth of any input. -/
def jsonParse (s : String) : Option Json :=
  match parseVal (4 * s.length + 4) s.data with
  | some (j, rest) => if skipWs rest = [] then some j else none
  | none => none

/-- Arithmetic truncation to a 32-bit word. -/
def w32 (n : Nat) : Nat := n % 4294967296

/-- Right rotation of a 32-bit word. -/
def rotr (x n : Nat) : Nat := w32 ((x >>> n) ||| (x <<< (32 - n)))

/-- SHA-256 choice function. -/
def ch (x y z : Nat) : Nat := (x &&& y) ^^^ ((x ^^^ 4294967295) &&& z)

/-- SHA-256 majority function. -/
def maj (x y z : Nat) : Nat := (x &&& y) ^^^ (x &&& z) ^^^ (y &&& z)

/-- SHA-256 big sigma 0. -/
def bigS0 (x : Nat) : Nat := rotr x 2 ^^^ rotr x 13 ^^^ rotr x 22

/-- SHA-256 big sigma 1. -/
def bigS1 (x : Nat) : Nat := rotr x 6 ^^^ rotr x 11 ^^^ rotr x 25

/-- SHA-256 small sigma 0. -/
def smallS0 (x : Nat) : Nat := rotr x 7 ^^^ rotr x 18 ^^^ (x >>> 3)

/-- SHA-256 small sigma 1. -/
def smallS1 (x : Nat) : Nat := rotr x 17 ^^^ rotr x 19 ^^^ (x >>> 10)

/-- SHA-256 round constants (FIPS 180-4, in decimal). -/
def shaK : List Nat :=
  [1116352408, 1899447441, 3049323471, 3921009573, 961987163, 1508970993,
   2453635748, 2870763221, 3624381080, 310598401, 607225278, 1426881987,
   1925078388, 2162078206, 2614888103, 3248222580, 3835390401, 4022224774,
   264347078, 604807628, 770255983, 1249150122, 1555081692, 1996064986,
   2554220882, 2821834349, 2952996808, 3210313671, 3336571891, 3584528711,
   113926993, 338241895, 666307205, 773529912, 1294757372, 1396182291,
   1695183700, 1986661051, 2177026350, 2456956037, 2730485921, 2820302411,
   3259730800, 3345764771, 3516065817, 3600352804, 4094571909, 275423344,
   430227734, 506948616, 659060556, 883997877, 958139571, 1322822218,
   1537002063, 1747873779, 1955562222, 2024104815, 2227730452, 2361852424,
   2428436474, 2756734187, 3204031479, 3329325298]

/-- Working state of the SHA-256 compression function. -/
structure Hash8 where
  a : Nat
  b : Nat
  c : Nat
  d : Nat
  e : Nat
  f : Nat
  g : Nat
  h : Nat

/-- SHA-256 initial hash state (FIPS 180-4, in decimal). -/
def shaH0 : Hash8 :=
  ⟨1779033703, 3144134277, 1013904242, 2773480762, 1359893119, 2600822924, 528734635, 1541459225⟩

/-- Big-endian byte rendering of a number in a fixed width. -/
def beBytes (width v : Nat) : List Nat :=
  (List.range width).map (fun i => (v >>> (8 * (width - 1 - i))) % 256)

/-- SHA-256 message padding. -/
def shaPad (m : List Nat) : List Nat :=
  let L := m.length
  let k := (55 + 64 - L % 64) % 64
  m ++ [128] ++ List.replicate k 0 ++ beBytes 8 (8 * L)

/-- Split a padded message into its 64-byte blocks. -/
def shaBlocks (l : List Nat) : List (List Nat) :=
  (List.range (l.length / 64)).map (fun i => (l.drop (64 * i)).take 64)

/-- Big-endian word value of four bytes. -/
def bytesToWord (bs : List Nat) : Nat := bs.foldl (fun a b => 256 * a + b) 0

/-- The sixteen 32-bit words of one block. -/
def blockWords (block : List Nat) : List Nat :=
  (List.range 16).map (fun i => bytesToWord ((block.drop (4 * i)).take 4))

/-- Message-schedule extension from 16 to 64 words. -/
def extendSchedule (ws : List Nat) : List Nat :=
  (List.range 48).foldl
    (fun acc _ =>
      let n := acc.length
      acc ++ [w32 (smallS1 (acc.getD (n - 2) 0) + acc.getD (n - 7) 0 +
                   smallS0 (acc.getD (n - 15) 0) + acc.getD (n - 16) 0)])
    ws

/-- One SHA-256 compression round; the pair carries the schedule word and
the round constant. -/
def shaRound (st : Hash8) (wk : Nat × Nat) : Hash8 :=
  let t1 := w32 (st.h + bigS1 st.e + ch st.e st.f st.g + wk.2 + wk.1)
  let t2 := w32 (bigS0 st.a + maj st.a st.b st.c)
  ⟨w32 (t1 + t2), st.a, st.b, st.c, w32 (st.d + t1), st.e, st.f, st.g⟩

/-- SHA-256 compression of one 64-byte block. -/
def compressBlock (H : Hash8) (block : List Nat) : Hash8 :=
  let ws := extendSchedule (blockWords block)
  let z := (ws.zip shaK).foldl shaRound H
  ⟨w32 (H.a + z.a), w32 (H.b + z.b), w32 (H.c + z.c), w32 (H.d + z.d),
   w32 (H.e + z.e), w32 (H.f + z.f), w32 (H.g + z.g), w32 (H.h + z.h)⟩

/-- SHA-256 digest of a byte list, as eight 32-bit words. -/
def sha256Words (m : List Nat) : List Nat :=
  let z := (shaBlocks (shaPad m)).foldl compressBlock shaH0
  [z.a, z.b, z.c, z.d, z.e, z.f, z.g, z.h]

/-- SHA-256 digest of a byte list, as 32 bytes. -/
def sha256Bytes (m : List Nat) : List Nat := (sha256Words m).flatMap (beBytes 4)

/-- Lowercase hex digit of a nibble value. -/
def hexDigit (n : Nat) : Char := "0123456789abcdef".data.getD n '0'

/-- Eight lowercase hex characters of one 32-bit word. -/
def hex8 (wd : Nat) : List Char :=
  (List.range 8).map (fun i => hexDigit ((wd >>> (4 * (7 - i))) % 16))

/-- Lowercase hex string of a word list. -/
def wordsHex (ws : List Nat) : String := String.mk (ws.flatMap hex8)

/-- Lowercase hex digest of SHA-256 over a byte list. -/
def sha256HexLower (m : List Nat) : String := wordsHex (sha256Words m)

/-- UTF-8 encoding of one character. -/
def utf8Char (c : Char) : List Nat :=
  let n := c.toNat
  if n < 128 then [n]
  else if n < 2048 then [192 + n / 64, 128 + n % 64]
  else if n < 65536 then [224 + n / 4096, 128 + n / 64 % 64, 128 + n % 64]
  else [240 + n / 262144, 128 + n / 4096 % 64, 128 + n / 64 % 64, 128 + n % 64]

/-- UTF-8 byte encoding of a string, the encoding node crypto applies to
string inputs. -/
def utf8 (s : String) : List Nat := s.data.flatMap utf8Char

/-- HMAC key normalized and zero-padded to the 64-byte block size. -/
def hmacKeyBlock (key : List Nat) : List Nat :=
  let k0 := if 64 < key.length then sha256Bytes key else key
  k0 ++ List.replicate (64 - k0.length) 0

/-- HMAC-SHA256 digest over byte lists, as eight 32-bit words. -/
def hmacSha256Words (key msg : List Nat) : List Nat :=
  let kb := hmacKeyBlock key
  sha256Words ((kb.map (fun b => b ^^^ 92)) ++ sha256Bytes ((kb.map (fun b => b ^^^ 54)) ++ msg))

/-- Model of the node crypto HMAC-SHA256 lowercase hex digest of msg keyed
by secret, both UTF-8 strings. -/
def hmacSha256Hex (secret msg : String) : String :=
  wordsHex (hmacSha256Words (utf8 secret) (utf8 msg))

/-- Model of the node crypto SHA-256 lowercase hex digest of a UTF-8
string. -/
def sha256Hex (s : String) : String := sha256HexLower (utf8 s)

/-- Model of the JavaScript toUpperCase as used on hex digests. -/
def jsToUpper (s : String) : String := String.mk (s.data.map Char.toUpper)

/-- Embedding of encryptStr (tuya.ts lines 40 to 42): the HMAC-SHA256 hex
digest of str keyed by secret, uppercased. -/
def encryptStr (str secret : String) : String := jsToUpper (hmacSha256Hex secret str)

/-- Lookup in a JavaScript-object association list; the first binding wins. -/
def lookupOpt : List (String × String) → String → Option String
  | [], _ => none
  | p :: l, k => if p.1 = k then some p.2 else lookupOpt l k

/-- Lookup defaulting to the empty string; the embedded code only applies
it to keys that are present. -/
def lookupD (l : List (String × String)) (k : String) : String :=
  (lookupOpt l k).getD ""

/-- Model of one property write target[k] = v on a JavaScript object: an
existing binding is overwritten in place, a new key is appended. -/
def setKey (l : List (String × String)) (k v : String) : List (String × String) :=
  if l.any (fun p => p.1 = k) then
    l.map (fun p => if p.1 = k then (k, v) else p)
  else l ++ [(k, v)]

/-- Model of Object.assign(target, source): every source binding is written
onto the target in order, and the returned object is the mutated target
itself. -/
def objAssign (target source : List (String × String)) : List (String × String) :=
  source.foldl (fun t p => setKey t p.1 p.2) target

/-- Split of a character list at every occurrence of a separator; an empty
input yields one empty segment, as the JavaScript String split does. -/
def splitOnChar (sep : Char) : List Char → List (List Char)
  | [] => [[]]
  | c :: cs =>
    let r := splitOnChar sep cs
    if c = sep then [] :: r
    else
      match r with
      | [] => [[c]]
      | h :: t => (c :: h) :: t

/-- Model of the JavaScript String split on a one-character separator. -/
def jsSplit (sep : Char) (s : String) : List String :=
  (splitOnChar sep s.data).map String.mk

/-- Model of qs.parse on the flat query strings this system produces:
ampersand-separated key=value pairs.  The argument is the possibly-absent
part of the path after the first question mark; qs.parse of the JavaScript
undefined is the empty object. -/
def qsParse : Option String → List (String × String)
  | none => []
  | some s =>
    if s = "" then []
    else
      ((jsSplit '&' s).filter (fun p => p ≠ "")).map (fun p =>
        match jsSplit '=' p with
        | [] => ("", "")
        | [k] => (k, "")
        | k :: vs => (k, String.intercalate "=" vs))

/-- First segment of path.split on the question mark (line 78). -/
def uriOf (path : String) : String := (jsSplit '?' path).headD ""

/-- Second segment of path.split on the question mark, when present. -/
def pathQueryOf (path : String) : Option String := (jsSplit '?' path)[1]?

/-- Model of decodeURIComponent applied to qs.stringify of a string-valued
object (line 86): the percent-encoding qs.stringify introduces is exactly
undone by the decode, leaving ampersand-joined key=value pairs. -/
def qsStringifyDecoded (l : List (String × String)) : String :=
  String.intercalate "&" (l.map (fun p => p.1 ++ "=" ++ p.2))

/-- The merged query object after line 80: Object.assign mutates the query
argument in place, so the query variable and queryMerged alias the same
object from that line on. -/
def mergedQuery (path : String) (query : List (String × String)) :
    List (String × String) :=
  objAssign query (qsParse (pathQueryOf path))

/-- Lexicographic comparison of character lists by code unit, the order the
default JavaScript Array.sort applies to string elements. -/
def charsLe : List Char → List Char → Bool
  | [], _ => true
  | _ :: _, [] => false
  | a :: as, b :: bs =>
    if a.toNat < b.toNat then true
    else if b.toNat < a.toNat then false
    else charsLe as bs

/-- Code-unit comparison of strings (ascending, byte-wise on ASCII). -/
def jsStrLe (a b : String) : Bool := charsLe a.data b.data

/-- The key order used when sorting merged query keys. -/
def keyLe (a b : String) : Prop := jsStrLe a b = true

instance : DecidableRel keyLe := fun a b => inferInstanceAs (Decidable (jsStrLe a b = true))

/-- Sorted key list of lines 82 to 83; JavaScript Array.sort on string keys
is ascending lexicographic order. -/
def sortedQueryKeys (merged : List (String × String)) : List String :=
  List.insertionSort keyLe (merged.map (fun p => p.1))

/-- The sortedQuery object of lines 81 to 84: sorted merged keys, each value
read back from the post-assign query object. -/
def canonicalQuery (path : String) (query : List (String × String)) :
    List (String × String) :=
  (sortedQueryKeys (mergedQuery path query)).map
    (fun k => (k, lookupD (mergedQuery path query) k))

/-- The querystring of line 86. -/
def canonicalQueryString (path : String) (query : List (String × String)) : String :=
  qsStringifyDecoded (canonicalQuery path query)

/-- The canonical url of line 87: the uri alone when the rebuilt query
string is empty, otherwise uri, question mark, query string. -/
def canonicalUrl (path : String) (query : List (String × String)) : String :=
  if canonicalQueryString path query ≠ "" then
    uriOf path ++ "?" ++ canonicalQueryString path query
  else uriOf path

/-- Modelled from the claim under examination, not from the source: a
rebuild that takes values only from the original, unmerged explicit query,
silently dropping any key that exists only in the path query. -/
def canonicalQuerySpecClaim (path : String) (query : List (String × String)) :
    List (String × String) :=
  (sortedQueryKeys (mergedQuery path query)).filterMap
    (fun k => (lookupOpt query k).map (fun v => (k, v)))

/-- Canonical URL built from the claim-side rebuild. -/
def canonicalUrlSpecClaim (path : String) (query : List (String × String)) : String :=
  let q := qsStringifyDecoded (canonicalQuerySpecClaim path query)
  if q ≠ "" then uriOf path ++ "?" ++ q else uriOf path

/-- Per-call credentials (tuya.ts line 27). -/
structure Creds where
  accessKey : String
  baseUrl : String
  secretKey : String

/-- One HTTP request as dispatched through fetch. -/
structure HttpRequest where
  url : String
  method : String
  headers : List (String × String)
  body : Option String

/-- One HTTP response: status code and raw body text. -/
structure HttpResponse where
  status : Nat
  body : String

/-- The ambient world of one invocation: the network oracle mapping each
request to its response, and the two Date.now readings (getToken at line
47, getRequestSign at line 77). -/
structure World where
  fetchO : HttpRequest → HttpResponse
  nowToken : String
  nowSign : String

/-- Typed failure taxonomy of the embedding.  In the source each failure is
thrown as an Error whose message string preserves the recorded detail; the
constructors keep that detail structured, and the catch-and-rethrow of
lines 124 to 127 preserves the message, modelled as the identity. -/
inductive TuyaError where
  | authError (msg : String) : TuyaError
  | httpError (status : Nat) : TuyaError
  | apiError (msg : String) (code : String) : TuyaError
  | decodeError (body : String) : TuyaError
deriving DecidableEq

/-- The token request of getToken (lines 44 to 59), with its signed
headers. -/
def tokenRequest (w : World) (creds : Creds) : HttpRequest :=
  let timestamp := w.nowToken
  let contentHash := sha256Hex ""
  let stringToSign := String.intercalate "\n" ["GET", contentHash, "", "/v1.0/token?grant_type=1"]
  let signStr := creds.accessKey ++ timestamp ++ stringToSign
  { url := creds.baseUrl ++ "/v1.0/token?grant_type=1"
    method := "GET"
    headers := [("t", timestamp), ("sign_method", "HMAC-SHA256"),
                ("client_id", creds.accessKey), ("sign", encryptStr signStr creds.secretKey)]
    body := none }

/-- Extraction modelling res.result?.access_token with the or-default of
line 65: the sentinel takes effect for an absent result, an absent token
property and a falsy (empty) token value. -/
def accessTokenOf (res : Json) : String :=
  match jGet res "result" with
  | none => "NO TOKEN"
  | some r =>
    match jGet r "access_token" with
    | none => "NO TOKEN"
    | some v => if v.truthy then jsShow v else "NO TOKEN"

/-- Embedding of getToken (lines 44 to 66).  The trace lists the issued
requests, always exactly the token request; getToken never inspects the
HTTP status, it parses the body directly (line 60). -/
def getToken (w : World) (creds : Creds) : Except TuyaError String × List HttpRequest :=
  let req := tokenRequest w creds
  let response := w.fetchO req
  match jsonParse response.body with
  | none => (.error (.decodeError response.body), [req])
  | some res =>
    if !(truthy (jGet res "success")) then
      (.error (.authError ("Fetch failed: " ++ jsShowO (jGet res "msg"))), [req])
    else
      (.ok (accessTokenOf res), [req])

/-- The header record getRequestSign returns (lines 94 to 101). -/
structure SignHeaders where
  t : String
  path : String
  client_id : String
  sign : String
  sign_method : String
  access_token : String

/-- Header list of the header record, as passed to the main fetch. -/
def SignHeaders.toList (h : SignHeaders) : List (String × String) :=
  [("t", h.t), ("path", h.path), ("client_id", h.client_id),
   ("sign", h.sign), ("sign_method", h.sign_method), ("access_token", h.access_token)]

/-- The content hash of lines 88 to 91: the SHA-256 hex digest of the
JSON-serialized body for every method other than GET, and of the empty
string for GET. -/
def contentHashOf (method : String) (body : Json) : String :=
  if method ≠ "GET" then sha256Hex body.render else sha256Hex ""

/-- The successfully built signing headers of getRequestSign (lines 80 to
101), given the token getToken returned. -/
def signHeaders (w : World) (creds : Creds) (path method : String)
    (query : List (String × String)) (body : Json) (token : String) : SignHeaders :=
  let t := w.nowSign
  let url := canonicalUrl path query
  let contentHash := contentHashOf method body
  let stringToSign := String.intercalate "\n" [method, contentHash, "", url]
  let signStr := creds.accessKey ++ token ++ t ++ stringToSign
  { t := t
    path := url
    client_id := creds.accessKey
    sign := encryptStr signStr creds.secretKey
    sign_method := "HMAC-SHA256"
    access_token := token }

/-- Result of getRequestSign: the header record or the propagated token
failure, the issued requests, and the query object as the in-place
Object.assign of line 80 leaves it (the mutation happens only after
getToken has returned, so a token failure leaves the query untouched). -/
structure SignResult where
  result : Except TuyaError SignHeaders
  trace : List HttpRequest
  queryAfter : List (String × String)

/-- Embedding of getRequestSign (lines 68 to 102); the headers parameter of
the source is unused and omitted. -/
def getRequestSign (w : World) (creds : Creds) (path method : String)
    (query : List (String × String)) (body : Json) : SignResult :=
  let tok := getToken w creds
  match tok.1 with
  | .error e => { result := .error e, trace := tok.2, queryAfter := query }
  | .ok token =>
      { result := .ok (signHeaders w creds path method query body token)
        trace := tok.2
        queryAfter := mergedQuery path query }

/-- Success range of the fetch Response.ok flag. -/
def httpOk (status : Nat) : Bool := 200 ≤ status && status ≤ 299

/-- Envelope interpretation of the main response (lines 116 to 123): a
non-2xx status fails with the HTTP status before any JSON parsing is
attempted; a 2xx body is parsed, and a falsy envelope success fails with
the platform message and code; otherwise the envelope is returned. -/
def handleResponse (resp : HttpResponse) : Except TuyaError Json :=
  if !(httpOk resp.status) then .error (.httpError resp.status)
  else
    match jsonParse resp.body with
    | none => .error (.decodeError resp.body)
    | some j =>
      if !(truthy (jGet j "success")) then
        .error (.apiError (jsShowO (jGet j "msg")) (jsShowO (jGet j "code")))
      else .ok j

/-- The main request of authenticatedCall (lines 106 to 115): the body is
attached exactly for POST with a supplied (truthy) body argument. -/
def mkMainRequest (creds : Creds) (method endpoint : String) (h : SignHeaders)
    (body : Option Json) : HttpRequest :=
  { url := creds.baseUrl ++ endpoint
    method := method
    headers := h.toList
    body :=
      match body with
      | some b => if method = "POST" then some b.render else none
      | none => none }

/-- Result of an authenticated call: the envelope or the typed failure, the
requests issued in order, and the caller-visible final state of the query
object. -/
structure CallResult where
  result : Except TuyaError Json
  trace : List HttpRequest
  queryAfter : List (String × String)

/-- Embedding of authenticatedCall (lines 104 to 128).  Absent query and
body arguments fall back to the fresh empty-object defaults of
getRequestSign (lines 73 to 74). -/
def authenticatedCall (w : World) (creds : Creds) (method endpoint : String)
    (query : Option (List (String × String))) (body : Option Json) : CallResult :=
  let s := getRequestSign w creds endpoint method (query.getD []) (body.getD (.obj .nil))
  match s.result with
  | .error e => { result := .error e, trace := s.trace, queryAfter := s.queryAfter }
  | .ok h =>
      let req := mkMainRequest creds method endpoint h body
      { result := handleResponse (w.fetchO req)
        trace := s.trace ++ [req]
        queryAfter := s.queryAfter }

/-- Decoded flat device status: the status object built on lines 136 to
147. -/
structure DeviceStatus where
  onOff : Option Json := none
  brightness : Option Json := none
  temp : Option Json := none
  color : Option Json := none

/-- Code test of the forEach branches: the strict equality of c.code
against a string literal holds only for an equal string value. -/
def codeIs (e : Json) (c : String) : Bool :=
  match jGet e "code" with
  | some (.str s) => s = c
  | _ => false

/-- The value property of a status entry; an absent property is the
JavaScript undefined, collapsed to null here, which no modelled input
exercises. -/
def jValue (e : Json) : Json := (jGet e "value").getD .null

/-- One forEach step of getDeviceStatus (lines 137 to 147): a recognized
code updates its field, the colour value being a JSON string parsed again
(a parse failure throws out of the loop); an unrecognized code changes
nothing. -/
def statusStep (st : DeviceStatus) (e : Json) : Except TuyaError DeviceStatus :=
  if codeIs e "switch_led" then .ok { st with onOff := some (jValue e) }
  else if codeIs e "bright_value_v2" then .ok { st with brightness := some (jValue e) }
  else if codeIs e "temp_value_v2" then .ok { st with temp := some (jValue e) }
  else if codeIs e "colour_data_v2" then
    match jsonParse (jsShow (jValue e)) with
    | some j => .ok { st with color := some j }
    | none => .error (.decodeError (jsShow (jValue e)))
  else .ok st

/-- The forEach loop over the result entries, from a given accumulator. -/
def statusFold (st : DeviceStatus) : List Json → Except TuyaError DeviceStatus
  | [] => .ok st
  | e :: es =>
    match statusStep st e with
    | .ok st1 => statusFold st1 es
    | .error err => .error err

/-- Folding of the envelope result list into the flat status record,
starting from the empty object of line 136. -/
def decodeStatus (items : List Json) : Except TuyaError DeviceStatus :=
  statusFold {} items

/-- Embedding of getDeviceStatus (lines 130 to 150): a GET of the status
endpoint through authenticatedCall, then the fold over the result list; a
missing or non-array result makes the forEach of the source throw. -/
def getDeviceStatus (w : World) (creds : Creds) (deviceId : String) :
    Except TuyaError DeviceStatus × List HttpRequest :=
  let endpoint := "/v1.0/devices/" ++ deviceId ++ "/status"
  let c := authenticatedCall w creds "GET" endpoint none none
  match c.result with
  | .error e => (.error e, c.trace)
  | .ok j =>
    match jGet j "result" with
    | some (.arr items) => (decodeStatus items.toList, c.trace)
    | _ => (.error (.decodeError "result"), c.trace)

/-- Embedding of turnOnOff (lines 152 to 168): a POST of a single
switch_led command, the command list itself JSON-stringified into the
commands body field, then the stringified confirmation record. -/
def turnOnOff (w : World) (creds : Creds) (deviceId : String) (onOff : Bool) :
    Except TuyaError String × List HttpRequest :=
  let endpoint := "/v1.0/devices/" ++ deviceId ++ "/commands"
  let commands : Json :=
    .arr (.cons (.obj (.cons "code" (.str "switch_led") (.cons "value" (.bool onOff) .nil))) .nil)
  let body : Json := .obj (.cons "commands" (.str commands.render) .nil)
  let c := authenticatedCall w creds "POST" endpoint (some []) (some body)
  match c.result with
  | .error e => (.error e, c.trace)
  | .ok _ =>
      (.ok (Json.render (.obj
          (.cons "message" (.str ("The light is now " ++ (if onOff then "on" else "off")))
          (.cons "deviceId" (.str deviceId)
          (.cons "currentState" (.bool onOff) .nil))))), c.trace)

/-- Embedding of changeColor (lines 182 to 202): the same commands endpoint
with a colour_data_v2 command whose value is the stringified h-s-v
object. -/
def changeColor (w : World) (creds : Creds) (deviceId : String) (h s v : Int) :
    Except TuyaError String × List HttpRequest :=
  let endpoint := "/v1.0/devices/" ++ deviceId ++ "/commands"
  let hsv : Json := .obj (.cons "h" (.num h) (.cons "s" (.num s) (.cons "v" (.num v) .nil)))
  let commands : Json :=
    .arr (.cons (.obj (.cons "code" (.str "colour_data_v2") (.cons "value" (.str hsv.render) .nil))) .nil)
  let body : Json := .obj (.cons "commands" (.str commands.render) .nil)
  let c := authenticatedCall w creds "POST" endpoint (some []) (some body)
  match c.result with
  | .error e => (.error e, c.trace)
  | .ok _ =>
      (.ok (Json.render (.obj
          (.cons "message" (.str "The color has changed")
          (.cons "deviceId" (.str deviceId)
          (.cons "currentState"
            (.str ("h: " ++ toString h ++ ", s: " ++ toString s ++ ", v: " ++ toString v)) .nil))))),
       c.trace)

/-- Environment bindings of device identifiers by room key. -/
structure Env where
  BEDROOM_DEVICE_ID : String
  LIVINGROOM_DEVICE_ID : String
  DINNING_DEVICE_ID : String
  KITCHEN_DEVICE_ID : String

/-- The fixed four-entry device table built in getDeviceId (lines 171 to
176). -/
def deviceTable (env : Env) : List (String × String) :=
  [("bedroom", env.BEDROOM_DEVICE_ID), ("livingroom", env.LIVINGROOM_DEVICE_ID),
   ("diningroom", env.DINNING_DEVICE_ID), ("kitchen", env.KITCHEN_DEVICE_ID)]

/-- Embedding of getDeviceId (lines 170 to 180): the JSON.stringify of the
looked-up entry.  JSON.stringify of the JavaScript undefined is itself
undefined, modelled as none, so an unknown key yields none while a found
identifier comes back as its quoted JSON serialization. -/
def getDeviceId (roomName : String) (env : Env) : Option String :=
  (lookupOpt (deviceTable env) roomName).map (fun s => renderString s)

/-- Whitespace class of the JavaScript regular expression escape s and of
the trim method, restricted to the characters that can occur here. -/
def jsIsWs (c : Char) : Bool :=
  c = ' ' || c = '\t' || c = '\n' || c = '\r' || c = '\x0b' || c = '\x0c'

/-- Drop leading whitespace from a character list. -/
def dropLeadingWs : List Char → List Char
  | [] => []
  | c :: cs => if jsIsWs c then dropLeadingWs cs else c :: cs

/-- Model of the JavaScript String trim. -/
def jsTrim (s : String) : String :=
  String.mk ((dropLeadingWs (dropLeadingWs s.data).reverse).reverse)

/-- Model of the JavaScript toLowerCase on the ASCII room names used
here. -/
def jsToLower (s : String) : String :=
  String.mk (s.data.map (fun c => if 'A' ≤ c && c ≤ 'Z' then Char.ofNat (c.toNat + 32) else c))

/-- The tool-layer normalization of the room name (chat-route source, the
getDeviceId tool execute): trim, lower-case, strip all whitespace. -/
def jsNormalizeRoom (s : String) : String :=
  String.mk ((jsToLower (jsTrim s)).data.filter (fun c => !jsIsWs c))

/-- The full resolution pipeline of the getDeviceId tool: normalization
followed by the table lookup. -/
def resolveDeviceId (roomName : String) (env : Env) : Option String :=
  getDeviceId (jsNormalizeRoom roomName) env

/-! Helper lemmas about the hex digest alphabet and length. -/

theorem hex8_length (wd : Nat) : (hex8 wd).length = 8 := by
  simp [hex8]

theorem flatMapHex8_length (ws : List Nat) : (ws.flatMap hex8).length = 8 * ws.length := by
  induction ws with
  | nil => rfl
  | cons w t ih => simp [List.flatMap_cons, hex8_length, ih]; ring

theorem hexDigit_mem (n : Nat) (h : n < 16) : hexDigit n ∈ "0123456789abcdef".data := by
  interval_cases n <;> decide

theorem toUpper_hex_mem (c : Char) (h : c ∈ "0123456789abcdef".data) :
    c.toUpper ∈ "0123456789ABCDEF".data := by
  fin_cases h <;> decide

theorem wordsHex_chars (ws : List Nat) :
    ∀ c ∈ (wordsHex ws).data, c ∈ "0123456789abcdef".data := by
  intro c hc
  have hc2 : c ∈ ws.flatMap hex8 := hc
  rcases List.mem_flatMap.1 hc2 with ⟨wd, _, hmem⟩
  simp only [hex8, List.mem_map, List.mem_range] at hmem
  rcases hmem with ⟨i, _, rfl⟩
  exact hexDigit_mem _ (Nat.mod_lt _ (by norm_num))

/-- C8: the Signer encryptStr (tuya.ts lines 40 to 42) returns the
uppercase hexadecimal encoding of the HMAC-SHA256 digest of the message
keyed by the secret: it equals the uppercased lowercase hex digest, it is
64 characters drawn from the uppercase hex alphabet, and re-running it on
identical inputs yields an identical signature (a pure deterministic
function with no failure mode for string inputs). -/
theorem encryptStr_uppercase_hex_deterministic (msg secret : String) :
    encryptStr msg secret = jsToUpper (hmacSha256Hex secret msg)
    ∧ (encryptStr msg secret).length = 64
    ∧ (∀ c ∈ (encryptStr msg secret).data, c ∈ "0123456789ABCDEF".data)
    ∧ (∀ m2 s2 : String, m2 = msg → s2 = secret →
        encryptStr m2 s2 = encryptStr msg secret) := by
  refine ⟨rfl, ?_, ?_, ?_⟩
  · show ((wordsHex (hmacSha256Words (utf8 secret) (utf8 msg))).data.map Char.toUpper).length = 64
    rw [List.length_map]
    show ((hmacSha256Words (utf8 secret) (utf8 msg)).flatMap hex8).length = 64
    rw [flatMapHex8_length]
    rfl
  · intro c hc
    have hmapped : c ∈ (wordsHex (hmacSha256Words (utf8 secret) (utf8 msg))).data.map Char.toUpper := hc
    rcases List.mem_map.1 hmapped with ⟨c0, hc0, rfl⟩
    exact toUpper_hex_mem c0 (wordsHex_chars _ c0 hc0)
  · intro m2 s2 hm hs
    rw [hm, hs]

/-- Witness for C8 at concrete inputs, discharging the determinism
hypotheses. -/
theorem encryptStr_uppercase_hex_deterministic_witness :
    ("HELLO" : String) = "HELLO" ∧ encryptStr "HELLO" "SECRET" = encryptStr "HELLO" "SECRET" :=
  ⟨rfl, (encryptStr_uppercase_hex_deterministic "HELLO" "SECRET").2.2.2 "HELLO" "SECRET" rfl rfl⟩

/-- C7: the getDeviceId tool normalizes the room name by trimming,
lower-casing and stripping all whitespace, and looks the result up in the
fixed four-entry table; the name Living Room with a trailing blank
normalizes to livingroom and returns the configured living-room device
identifier (as the JSON serialization JSON.stringify produces), and every
name whose normalization is not one of the four table keys resolves to
none, the definite not-found result modelling the JavaScript undefined. -/
theorem resolveDeviceId_normalization_lookup (env : Env) (name : String) :
    resolveDeviceId name env = getDeviceId (jsNormalizeRoom name) env
    ∧ jsNormalizeRoom "Living Room " = "livingroom"
    ∧ resolveDeviceId "Living Room " env = some (renderString env.LIVINGROOM_DEVICE_ID)
    ∧ (jsNormalizeRoom name ∉ (["bedroom", "livingroom", "diningroom", "kitchen"] : List String) →
        resolveDeviceId name env = none) := by
  have h2 : jsNormalizeRoom "Living Room " = "livingroom" := by decide
  refine ⟨rfl, h2, ?_, ?_⟩
  · show getDeviceId (jsNormalizeRoom "Living Room ") env = _
    rw [h2]
    rfl
  · intro hnot
    have h1 : ¬ ("bedroom" = jsNormalizeRoom name) := fun hh => hnot (by rw [← hh]; simp)
    have hl : ¬ ("livingroom" = jsNormalizeRoom name) := fun hh => hnot (by rw [← hh]; simp)
    have hd : ¬ ("diningroom" = jsNormalizeRoom name) := fun hh => hnot (by rw [← hh]; simp)
    have hk : ¬ ("kitchen" = jsNormalizeRoom name) := fun hh => hnot (by rw [← hh]; simp)
    show (lookupOpt (deviceTable env) (jsNormalizeRoom name)).map renderString = none
    simp [deviceTable, lookupOpt, h1, hl, hd, hk]

/-- Witness for C7: a room name outside the table resolves to the definite
not-found result. -/
theorem resolveDeviceId_normalization_lookup_witness :
    (jsNormalizeRoom "Attic " ∉ (["bedroom", "livingroom", "diningroom", "kitchen"] : List String))
    ∧ resolveDeviceId "Attic "
        { BEDROOM_DEVICE_ID := "b1", LIVINGROOM_DEVICE_ID := "l1",
          DINNING_DEVICE_ID := "d1", KITCHEN_DEVICE_ID := "k1" } = none :=
  ⟨by decide,
   (resolveDeviceId_normalization_lookup
      { BEDROOM_DEVICE_ID := "b1", LIVINGROOM_DEVICE_ID := "l1",
        DINNING_DEVICE_ID := "d1", KITCHEN_DEVICE_ID := "k1" } "Attic ").2.2.2 (by decide)⟩

/-- One status entry with the given code and value, as the platform lists
them. -/
def mkItem (c : String) (v : Json) : Json :=
  .obj (.cons "code" (.str c) (.cons "value" v .nil))

/-- C6: the getDeviceStatus fold maps switch_led to onOff, bright_value_v2
to brightness, temp_value_v2 to temp and colour_data_v2 to color, parsing
the colour value (itself a JSON string) again into a nested object; every
entry whose code is outside this set is ignored.  On the example list with
a switch_led true entry and a colour h 10, s 500, v 800 entry it decodes to
exactly onOff true and that nested colour object, with brightness and temp
absent. -/
theorem decodeStatus_mapping_and_example :
    decodeStatus [mkItem "switch_led" (.bool true),
        mkItem "colour_data_v2" (.str "\x7b\"h\":10,\"s\":500,\"v\":800\x7d")]
      = .ok { onOff := some (.bool true), brightness := none, temp := none,
              color := some (.obj (.cons "h" (.num 10) (.cons "s" (.num 500)
                        (.cons "v" (.num 800) .nil)))) }
    ∧ (∀ (st : DeviceStatus) (e : Json),
        (∀ c ∈ (["switch_led", "bright_value_v2", "temp_value_v2",
            "colour_data_v2"] : List String), ¬ codeIs e c) →
        statusStep st e = .ok st) := by
  constructor
  · rfl
  · intro st e hnc
    have h1 : codeIs e "switch_led" = false := by
      simpa using hnc "switch_led" (by simp)
    have h2 : codeIs e "bright_value_v2" = false := by
      simpa using hnc "bright_value_v2" (by simp)
    have h3 : codeIs e "temp_value_v2" = false := by
      simpa using hnc "temp_value_v2" (by simp)
    have h4 : codeIs e "colour_data_v2" = false := by
      simpa using hnc "colour_data_v2" (by simp)
    simp [statusStep, h1, h2, h3, h4]

/-- Witness for C6: an entry with an unrecognized code leaves the record
unchanged. -/
theorem decodeStatus_mapping_and_example_witness :
    (∀ c ∈ (["switch_led", "bright_value_v2", "temp_value_v2",
        "colour_data_v2"] : List String), ¬ codeIs (mkItem "power" (.bool true)) c)
    ∧ statusStep {} (mkItem "power" (.bool true)) = .ok {} :=
  ⟨by decide, decodeStatus_mapping_and_example.2 {} (mkItem "power" (.bool true)) (by decide)⟩

/-- First-wins disjunction of options, used to state fold invariants. -/
def orO (a b : Option Json) : Option Json :=
  match a with
  | some x => some x
  | none => b

theorem orO_none (a : Option Json) : orO a none = a := by
  cases a <;> rfl

theorem orO_assoc (a b c : Option Json) : orO (orO a b) c = orO a (orO b c) := by
  cases a <;> rfl

theorem map_orO (f : Json → Json) (a b : Option Json) :
    (orO a b).map f = orO (a.map f) (b.map f) := by
  cases a <;> rfl

theorem getLast?_cons_orO (a : Json) (l : List Json) :
    (a :: l).getLast? = orO l.getLast? (some a) := by
  cases l with
  | nil => rfl
  | cons b t =>
    rw [List.getLast?_cons_cons]
    rcases hx : (b :: t).getLast? with _ | x
    · rw [List.getLast?_eq_none_iff] at hx
      cases hx
    · rfl

theorem codeIs_eq (e : Json) (c1 c2 : String)
    (h1 : codeIs e c1 = true) (h2 : codeIs e c2 = true) : c1 = c2 := by
  unfold codeIs at h1 h2
  rcases hg : jGet e "code" with _ | v
  · rw [hg] at h1
    cases h1
  · rw [hg] at h1 h2
    cases v <;> simp_all

theorem codeIs_other (e : Json) (c1 c2 : String) (h : codeIs e c1 = true) (hne : c1 ≠ c2) :
    ¬ (codeIs e c2 = true) := fun h2 => hne (codeIs_eq e c1 c2 h h2)

theorem statusStep_fields (st : DeviceStatus) (e : Json) (st1 : DeviceStatus)
    (hs : statusStep st e = .ok st1) :
    st1.onOff = (if codeIs e "switch_led" then some (jValue e) else st.onOff)
    ∧ st1.brightness = (if codeIs e "bright_value_v2" then some (jValue e) else st.brightness)
    ∧ st1.temp = (if codeIs e "temp_value_v2" then some (jValue e) else st.temp) := by
  unfold statusStep at hs
  by_cases h1 : codeIs e "switch_led" = true
  · rw [if_pos h1] at hs
    cases hs
    exact ⟨by rw [if_pos h1],
      by rw [if_neg (codeIs_other e _ _ h1 (by decide))],
      by rw [if_neg (codeIs_other e _ _ h1 (by decide))]⟩
  · rw [if_neg h1] at hs
    by_cases h2 : codeIs e "bright_value_v2" = true
    · rw [if_pos h2] at hs
      cases hs
      exact ⟨by rw [if_neg h1],
        by rw [if_pos h2],
        by rw [if_neg (codeIs_other e _ _ h2 (by decide))]⟩
    · rw [if_neg h2] at hs
      by_cases h3 : codeIs e "temp_value_v2" = true
      · rw [if_pos h3] at hs
        cases hs
        exact ⟨by rw [if_neg h1], by rw [if_neg h2], by rw [if_pos h3]⟩
      · rw [if_neg h3] at hs
        by_cases h4 : codeIs e "colour_data_v2" = true
        · rw [if_pos h4] at hs
          rcases hp : jsonParse (jsShow (jValue e)) with _ | j
          · rw [hp] at hs
            cases hs
          · rw [hp] at hs
            cases hs
            exact ⟨by rw [if_neg h1], by rw [if_neg h2], by rw [if_neg h3]⟩
        · rw [if_neg h4] at hs
          cases hs
          exact ⟨by rw [if_neg h1], by rw [if_neg h2], by rw [if_neg h3]⟩

theorem statusFold_field (get : DeviceStatus → Option Json) (code : String)
    (hstep : ∀ st e st1, statusStep st e = .ok st1 →
      get st1 = if codeIs e code then some (jValue e) else get st) :
    ∀ (items : List Json) (st0 st : DeviceStatus), statusFold st0 items = .ok st →
      get st = orO (((items.filter (fun x => codeIs x code)).getLast?).map jValue) (get st0) := by
  intro items
  induction items with
  | nil =>
    intro st0 st h
    cases h
    rfl
  | cons e es ih =>
    intro st0 st h
    unfold statusFold at h
    rcases hs : statusStep st0 e with err | st1
    · rw [hs] at h
      cases h
    · rw [hs] at h
      have hg := ih st1 st h
      have he := hstep st0 e st1 hs
      by_cases hc : codeIs e code
      · rw [List.filter_cons, if_pos hc, getLast?_cons_orO, map_orO, orO_assoc]
        rw [hg, he, if_pos hc]
        rfl
      · rw [List.filter_cons, if_neg hc]
        rw [hg, he, if_neg hc]

theorem statusStep_color_of_colour (st : DeviceStatus) (e : Json) (st1 : DeviceStatus)
    (hs : statusStep st e = .ok st1) (hc : codeIs e "colour_data_v2" = true) :
    ∃ j, jsonParse (jsShow (jValue e)) = some j ∧ st1.color = some j := by
  unfold statusStep at hs
  rw [if_neg (codeIs_other e _ _ hc (by decide)),
      if_neg (codeIs_other e _ _ hc (by decide)),
      if_neg (codeIs_other e _ _ hc (by decide)), if_pos hc] at hs
  rcases hp : jsonParse (jsShow (jValue e)) with _ | j
  · rw [hp] at hs
    cases hs
  · rw [hp] at hs
    cases hs
    exact ⟨j, rfl, rfl⟩

theorem statusStep_color_of_other (st : DeviceStatus) (e : Json) (st1 : DeviceStatus)
    (hs : statusStep st e = .ok st1) (hc : codeIs e "colour_data_v2" = false) :
    st1.color = st.color := by
  unfold statusStep at hs
  by_cases h1 : codeIs e "switch_led" = true
  · rw [if_pos h1] at hs
    cases hs
    rfl
  · rw [if_neg h1] at hs
    by_cases h2 : codeIs e "bright_value_v2" = true
    · rw [if_pos h2] at hs
      cases hs
      rfl
    · rw [if_neg h2] at hs
      by_cases h3 : codeIs e "temp_value_v2" = true
      · rw [if_pos h3] at hs
        cases hs
        rfl
      · rw [if_neg h3] at hs
        rw [if_neg (by simp [hc])] at hs
        cases hs
        rfl

theorem statusFold_color :
    ∀ (items : List Json) (st0 st : DeviceStatus), statusFold st0 items = .ok st →
      (match (items.filter (fun x => codeIs x "colour_data_v2")).getLast? with
       | some e => ∃ j, jsonParse (jsShow (jValue e)) = some j ∧ st.color = some j
       | none => st.color = st0.color) := by
  intro items
  induction items with
  | nil =>
    intro st0 st h
    cases h
    rfl
  | cons e es ih =>
    intro st0 st h
    unfold statusFold at h
    rcases hs : statusStep st0 e with err | st1
    · rw [hs] at h
      cases h
    · rw [hs] at h
      have hg := ih st1 st h
      by_cases hc : codeIs e "colour_data_v2"
      · rw [List.filter_cons, if_pos hc, getLast?_cons_orO]
        rcases hx : (es.filter (fun x => codeIs x "colour_data_v2")).getLast? with _ | e2
        · rw [hx] at hg
          show ∃ j, jsonParse (jsShow (jValue e)) = some j ∧ st.color = some j
          rcases statusStep_color_of_colour st0 e st1 hs hc with ⟨j, hj, hcol⟩
          exact ⟨j, hj, by rw [hg, hcol]⟩
        · rw [hx] at hg
          exact hg
      · rw [List.filter_cons, if_neg hc]
        have hpres := statusStep_color_of_other st0 e st1 hs (by simpa using hc)
        rcases hx : (es.filter (fun x => codeIs x "colour_data_v2")).getLast? with _ | e2
        · rw [hx] at hg
          rw [hg, hpres]
        · rw [hx] at hg
          exact hg

theorem filterLast_isSome (p : Json → Bool) (items : List Json) :
    ((items.filter p).getLast?).isSome ↔ ∃ e ∈ items, p e := by
  rw [List.getLast?_isSome, ne_eq, List.filter_eq_nil_iff]
  push_neg
  simp

/-- C10: decodeStatus processes the result entries in list order starting
from the empty record, so for each recognized code the value of the last
occurrence wins, and a field is present in the decoded record exactly when
at least one entry with the corresponding code occurs in the list. -/
theorem decodeStatus_last_occurrence_wins (items : List Json) (st : DeviceStatus)
    (h : decodeStatus items = .ok st) :
    st.onOff = ((items.filter (fun x => codeIs x "switch_led")).getLast?).map jValue
    ∧ st.brightness = ((items.filter (fun x => codeIs x "bright_value_v2")).getLast?).map jValue
    ∧ st.temp = ((items.filter (fun x => codeIs x "temp_value_v2")).getLast?).map jValue
    ∧ (∀ e, (items.filter (fun x => codeIs x "colour_data_v2")).getLast? = some e →
        st.color = jsonParse (jsShow (jValue e)))
    ∧ ((items.filter (fun x => codeIs x "colour_data_v2")) = [] → st.color = none)
    ∧ (st.onOff.isSome ↔ ∃ e ∈ items, codeIs e "switch_led")
    ∧ (st.brightness.isSome ↔ ∃ e ∈ items, codeIs e "bright_value_v2")
    ∧ (st.temp.isSome ↔ ∃ e ∈ items, codeIs e "temp_value_v2")
    ∧ (st.color.isSome ↔ ∃ e ∈ items, codeIs e "colour_data_v2") := by
  have hOn := statusFold_field (fun s => s.onOff) "switch_led"
    (fun st e st1 hs => (statusStep_fields st e st1 hs).1) items {} st h
  have hBr := statusFold_field (fun s => s.brightness) "bright_value_v2"
    (fun st e st1 hs => (statusStep_fields st e st1 hs).2.1) items {} st h
  have hTe := statusFold_field (fun s => s.temp) "temp_value_v2"
    (fun st e st1 hs => (statusStep_fields st e st1 hs).2.2) items {} st h
  have hCo := statusFold_color items {} st h
  rw [orO_none] at hOn hBr hTe
  replace hOn : st.onOff
      = ((items.filter (fun x => codeIs x "switch_led")).getLast?).map jValue := hOn
  replace hBr : st.brightness
      = ((items.filter (fun x => codeIs x "bright_value_v2")).getLast?).map jValue := hBr
  replace hTe : st.temp
      = ((items.filter (fun x => codeIs x "temp_value_v2")).getLast?).map jValue := hTe
  refine ⟨hOn, hBr, hTe, ?_, ?_, ?_, ?_, ?_, ?_⟩
  · intro e he
    rw [he] at hCo
    rcases hCo with ⟨j, hj, hcol⟩
    rw [hcol, hj]
  · intro hnil
    rw [hnil] at hCo
    exact hCo
  · rw [hOn, Option.isSome_map']
    exact filterLast_isSome _ items
  · rw [hBr, Option.isSome_map']
    exact filterLast_isSome _ items
  · rw [hTe, Option.isSome_map']
    exact filterLast_isSome _ items
  · constructor
    · intro hsome
      rw [← filterLast_isSome (fun x => codeIs x "colour_data_v2") items]
      rcases hx : (items.filter (fun x => codeIs x "colour_data_v2")).getLast? with _ | e2
      · rw [hx] at hCo
        rw [hCo] at hsome
        cases hsome
      · rfl
    · intro hex
      have hsome2 := (filterLast_isSome (fun x => codeIs x "colour_data_v2") items).2 hex
      rcases Option.isSome_iff_exists.1 hsome2 with ⟨e2, hx⟩
      rw [hx] at hCo
      rcases hCo with ⟨j, _, hcol⟩
      rw [hcol]
      rfl

/-- Witness for C10 at a concrete list where a later switch_led entry
overwrites an earlier one. -/
theorem decodeStatus_last_occurrence_wins_witness :
    decodeStatus [mkItem "switch_led" (.bool true), mkItem "switch_led" (.bool false)]
        = .ok { onOff := some (.bool false) }
    ∧ ({ onOff := some (.bool false) } : DeviceStatus).onOff
        = (([mkItem "switch_led" (.bool true), mkItem "switch_led" (.bool false)].filter
            (fun x => codeIs x "switch_led")).getLast?).map jValue :=
  ⟨rfl,
   (decodeStatus_last_occurrence_wins
      [mkItem "switch_led" (.bool true), mkItem "switch_led" (.bool false)]
      { onOff := some (.bool false) } rfl).1⟩

/-! Concrete test fixtures used by witnesses and counterexamples. -/

/-- Test credentials. -/
def credsT : Creds := { accessKey := "AK", baseUrl := "https://api.example", secretKey := "SK" }

/-- World whose token endpoint replies success false with a message. -/
def worldAuthFail : World :=
  { fetchO := fun _ =>
      { status := 200, body := "\x7b\"success\":false,\"msg\":\"invalid signature\"\x7d" }
    nowToken := "1000"
    nowSign := "2000" }

/-- World whose token endpoint replies success true with a present but
empty access token. -/
def worldEmptyToken : World :=
  { fetchO := fun _ =>
      { status := 200, body := "\x7b\"success\":true,\"result\":\x7b\"access_token\":\"\"\x7d\x7d" }
    nowToken := "1000"
    nowSign := "2000" }

/-- World whose token endpoint succeeds and whose every other endpoint
replies with an HTTP 500 and a non-JSON body. -/
def worldMain500 : World :=
  { fetchO := fun r =>
      if r.url = "https://api.example/v1.0/token?grant_type=1" then
        { status := 200, body := "\x7b\"success\":true,\"result\":\x7b\"access_token\":\"tok\"\x7d\x7d" }
      else { status := 500, body := "Internal Server Error" }
    nowToken := "1000"
    nowSign := "2000" }

/-- C4 (amended): getToken fails with the AuthError carrying the platform
message exactly when the parsed token envelope has success false; on
success true it returns the access token of the result through the
or-default of line 65, which yields the sentinel NO TOKEN exactly when the
token is absent from the result, the result itself is absent, or the token
is the falsy empty string, and yields the token itself otherwise. -/
theorem getToken_envelope_semantics (w : World) (creds : Creds) (j : Json)
    (hparse : jsonParse ((w.fetchO (tokenRequest w creds)).body) = some j) :
    (∀ b, jGet j "success" = some (.bool b) →
      (((getToken w creds).1
          = .error (.authError ("Fetch failed: " ++ jsShowO (jGet j "msg")))) ↔ b = false))
    ∧ (jGet j "success" = some (.bool true) → (getToken w creds).1 = .ok (accessTokenOf j))
    ∧ (jGet j "result" = none → accessTokenOf j = "NO TOKEN")
    ∧ (∀ r, jGet j "result" = some r → jGet r "access_token" = none →
        accessTokenOf j = "NO TOKEN")
    ∧ (∀ r, jGet j "result" = some r → jGet r "access_token" = some (.str "") →
        accessTokenOf j = "NO TOKEN")
    ∧ (∀ r s, jGet j "result" = some r → jGet r "access_token" = some (.str s) → s ≠ "" →
        accessTokenOf j = s) := by
  have hbody : getToken w creds
      = (if !(truthy (jGet j "success")) then
          (.error (.authError ("Fetch failed: " ++ jsShowO (jGet j "msg"))), [tokenRequest w creds])
        else (.ok (accessTokenOf j), [tokenRequest w creds])) := by
    simp only [getToken, hparse]
  refine ⟨?_, ?_, ?_, ?_, ?_, ?_⟩
  · intro b hb
    rw [hbody, hb]
    cases b <;> simp [truthy, Json.truthy]
  · intro hb
    rw [hbody, hb]
    simp [truthy, Json.truthy]
  · intro hr
    simp only [accessTokenOf, hr]
  · intro r hr hnone
    simp only [accessTokenOf, hr, hnone]
  · intro r hr hstr
    simp only [accessTokenOf, hr, hstr]
    rfl
  · intro r s hr hstr hne
    simp only [accessTokenOf, hr, hstr]
    have : (Json.str s).truthy = true := by
      simp [Json.truthy, hne]
    rw [this]
    rfl

/-- Witness for C4 at a concrete world whose token endpoint succeeds with a
present empty token. -/
theorem getToken_envelope_semantics_witness :
    (getToken worldEmptyToken credsT).1
      = .ok (accessTokenOf (.obj (.cons "success" (.bool true)
          (.cons "result" (.obj (.cons "access_token" (.str "") .nil)) .nil)))) :=
  (getToken_envelope_semantics worldEmptyToken credsT
      (.obj (.cons "success" (.bool true)
        (.cons "result" (.obj (.cons "access_token" (.str "") .nil)) .nil))) rfl).2.1 rfl

/-- Counterexample to C4 as stated: the token endpoint replies success true
with the access token PRESENT and equal to the empty string, yet getToken
returns the sentinel NO TOKEN rather than that token value: the or-default
of line 65 fires on every falsy token, not only on an absent one. -/
theorem getToken_empty_token_counterexample :
    (jsonParse ((worldEmptyToken.fetchO (tokenRequest worldEmptyToken credsT)).body)
        = some (.obj (.cons "success" (.bool true)
            (.cons "result" (.obj (.cons "access_token" (.str "") .nil)) .nil))))
    ∧ (jGet (.obj (.cons "success" (.bool true)
            (.cons "result" (.obj (.cons "access_token" (.str "") .nil)) .nil))) "success"
        = some (.bool true))
    ∧ ((jGet (.obj (.cons "success" (.bool true)
            (.cons "result" (.obj (.cons "access_token" (.str "") .nil)) .nil))) "result").bind
          (fun r => jGet r "access_token") = some (.str ""))
    ∧ (getToken worldEmptyToken credsT).1 = .ok "NO TOKEN"
    ∧ ("NO TOKEN" : String) ≠ "" :=
  ⟨rfl, rfl, rfl, rfl, by decide⟩

/-- C5: when the token endpoint reports success false with a message,
turnOnOff fails with the AuthError carrying that message and the only
request ever issued is the token request: no command request is dispatched,
because token acquisition strictly precedes signing and the main call. -/
theorem turnOnOff_auth_failure_no_command (w : World) (creds : Creds)
    (deviceId : String) (onOff : Bool) (j : Json) (m : String)
    (hparse : jsonParse ((w.fetchO (tokenRequest w creds)).body) = some j)
    (hfail : jGet j "success" = some (.bool false))
    (hmsg : jGet j "msg" = some (.str m)) :
    (turnOnOff w creds deviceId onOff).1 = .error (.authError ("Fetch failed: " ++ m))
    ∧ (turnOnOff w creds deviceId onOff).2 = [tokenRequest w creds]
    ∧ ∀ r ∈ (turnOnOff w creds deviceId onOff).2,
        r.url = creds.baseUrl ++ "/v1.0/token?grant_type=1" := by
  have htok : getToken w creds
      = (.error (.authError ("Fetch failed: " ++ m)), [tokenRequest w creds]) := by
    simp only [getToken, hparse, hfail]
    simp [truthy, Json.truthy, jsShowO, jsShow, hmsg]
  have hcall : turnOnOff w creds deviceId onOff
      = (.error (.authError ("Fetch failed: " ++ m)), [tokenRequest w creds]) := by
    simp only [turnOnOff, authenticatedCall, getRequestSign, htok]
  refine ⟨by rw [hcall], by rw [hcall], ?_⟩
  intro r hr
  rw [hcall] at hr
  simp only [List.mem_singleton] at hr
  rw [hr]
  rfl

/-- Witness for C5 at a concrete world whose token endpoint reports the
invalid-signature failure. -/
theorem turnOnOff_auth_failure_no_command_witness :
    (turnOnOff worldAuthFail credsT "dev1" true).1
      = .error (.authError ("Fetch failed: " ++ "invalid signature")) :=
  (turnOnOff_auth_failure_no_command worldAuthFail credsT "dev1" true
      (.obj (.cons "success" (.bool false) (.cons "msg" (.str "invalid signature") .nil)))
      "invalid signature" rfl rfl rfl).1

/-- C1: given that token acquisition succeeded, the result of
authenticatedCall is exactly the envelope interpretation of the oracle
response to the main request: on a non-2xx status it is HttpError carrying
that status, for EVERY response body, none of which is parsed; on a 2xx
status whose body parses to an envelope whose success field is the boolean
b, it is the envelope itself when b is true and ApiError carrying the
platform message and code when b is false; and the two failure kinds are
distinguishable typed constructors with the original detail preserved. -/
theorem authenticatedCall_envelope_semantics (w : World) (creds : Creds)
    (method endpoint : String) (query : Option (List (String × String)))
    (body : Option Json) (tok : String)
    (htok : (getToken w creds).1 = .ok tok) :
    (authenticatedCall w creds method endpoint query body).result
      = handleResponse (w.fetchO (mkMainRequest creds method endpoint
          (signHeaders w creds endpoint method (query.getD []) (body.getD (.obj .nil)) tok) body))
    ∧ (∀ resp : HttpResponse, httpOk resp.status = false →
        ∀ b2 : String, handleResponse { status := resp.status, body := b2 }
          = .error (.httpError resp.status))
    ∧ (∀ resp : HttpResponse, httpOk resp.status = true →
        ∀ j b, jsonParse resp.body = some j → jGet j "success" = some (.bool b) →
          handleResponse resp
            = if b then .ok j
              else .error (.apiError (jsShowO (jGet j "msg")) (jsShowO (jGet j "code"))))
    ∧ (∀ st m c, TuyaError.httpError st ≠ TuyaError.apiError m c) := by
  have hs : getRequestSign w creds endpoint method (query.getD []) (body.getD (.obj .nil))
      = { result := .ok (signHeaders w creds endpoint method (query.getD [])
            (body.getD (.obj .nil)) tok)
          trace := (getToken w creds).2
          queryAfter := mergedQuery endpoint (query.getD []) } := by
    simp only [getRequestSign, htok]
  refine ⟨?_, ?_, ?_, ?_⟩
  · simp only [authenticatedCall, hs]
  · intro resp h b2
    simp [handleResponse, h]
  · intro resp h j b hp hb
    simp only [handleResponse, h, hp, hb]
    cases b <;> simp [truthy, Json.truthy]
  · intro st m c h
    exact TuyaError.noConfusion h

/-- Witness for C1: a world whose commands endpoint replies with an HTTP
500 and a non-JSON body; the call result is the envelope interpretation of
that response, an HttpError 500 reached without parsing the body. -/
theorem authenticatedCall_envelope_semantics_witness :
    (getToken worldMain500 credsT).1 = .ok "tok"
    ∧ (authenticatedCall worldMain500 credsT "POST" "/v1.0/devices/d/commands"
        (some []) (some (.obj .nil))).result
      = handleResponse (worldMain500.fetchO (mkMainRequest credsT "POST"
          "/v1.0/devices/d/commands"
          (signHeaders worldMain500 credsT "/v1.0/devices/d/commands" "POST" [] (.obj .nil) "tok")
          (some (.obj .nil)))) :=
  ⟨rfl, (authenticatedCall_envelope_semantics worldMain500 credsT "POST"
      "/v1.0/devices/d/commands" (some []) (some (.obj .nil)) "tok" rfl).1⟩

/-- C3: given the acquired token, getRequestSign succeeds with exactly the
signing headers; the signed string is accessKey, token, timestamp and the
newline-joined string-to-sign of method, content hash, empty reserved
field and canonical URL, keyed by the secret through encryptStr, where the
content hash is the SHA-256 hex digest of the JSON-serialized body for
every method other than GET and of the empty string for GET; for GET the
headers do not depend on the supplied body at all. -/
theorem getRequestSign_content_hash_and_sign (w : World) (creds : Creds)
    (path method : String) (query : List (String × String)) (body : Json) (tok : String)
    (htok : (getToken w creds).1 = .ok tok) :
    (getRequestSign w creds path method query body).result
      = .ok (signHeaders w creds path method query body tok)
    ∧ (signHeaders w creds path method query body tok).sign
      = encryptStr
          (creds.accessKey ++ tok ++ w.nowSign ++ String.intercalate "\n"
            [method, contentHashOf method body, "", canonicalUrl path query])
          creds.secretKey
    ∧ (∀ body2 : Json, contentHashOf "GET" body2 = sha256Hex "")
    ∧ (method ≠ "GET" → contentHashOf method body = sha256Hex body.render)
    ∧ (∀ body2 : Json, signHeaders w creds path "GET" query body2 tok
        = signHeaders w creds path "GET" query body tok) := by
  have hget : ∀ body2 : Json, contentHashOf "GET" body2 = sha256Hex "" :=
    fun body2 => if_neg (by decide)
  refine ⟨by simp only [getRequestSign, htok], rfl, hget, fun h => if_pos h, ?_⟩
  intro body2
  unfold signHeaders
  rw [hget body2, hget body]

/-- Witness for C3 with a GET of the status endpoint through the concrete
world whose token endpoint succeeds. -/
theorem getRequestSign_content_hash_and_sign_witness :
    (getRequestSign worldMain500 credsT "/v1.0/devices/d/status" "GET" [] (.obj .nil)).result
      = .ok (signHeaders worldMain500 credsT "/v1.0/devices/d/status" "GET" [] (.obj .nil) "tok") :=
  (getRequestSign_content_hash_and_sign worldMain500 credsT "/v1.0/devices/d/status" "GET"
      [] (.obj .nil) "tok" rfl).1

/-! Lookup lemmas about the in-place object-merge model. -/

theorem lookupOpt_map_replace_ne (l : List (String × String)) (k v k2 : String)
    (hne : k2 ≠ k) :
    lookupOpt (l.map (fun p => if p.1 = k then (k, v) else p)) k2 = lookupOpt l k2 := by
  induction l with
  | nil => rfl
  | cons p l2 ih =>
    by_cases hp : p.1 = k
    · simp only [List.map_cons, if_pos hp]
      rw [lookupOpt, if_neg (fun hh => hne hh.symm), lookupOpt,
          if_neg (fun hh : p.1 = k2 => hne (hp ▸ hh.symm ▸ rfl))]
      exact ih
    · simp only [List.map_cons, if_neg hp]
      by_cases hk2 : p.1 = k2
      · rw [lookupOpt, if_pos hk2, lookupOpt, if_pos hk2]
      · rw [lookupOpt, if_neg hk2, lookupOpt, if_neg hk2]
        exact ih

theorem lookupOpt_map_replace_eq (l : List (String × String)) (k v : String)
    (hany : l.any (fun p => p.1 = k) = true) :
    lookupOpt (l.map (fun p => if p.1 = k then (k, v) else p)) k = some v := by
  induction l with
  | nil => cases hany
  | cons p l2 ih =>
    by_cases hp : p.1 = k
    · simp only [List.map_cons, if_pos hp]
      rw [lookupOpt, if_pos rfl]
    · simp only [List.map_cons, if_neg hp]
      rw [lookupOpt, if_neg hp]
      apply ih
      simp only [List.any_cons, Bool.or_eq_true, decide_eq_true_eq] at hany
      rcases hany with h | h
      · exact absurd h hp
      · exact h

theorem lookupOpt_append_new (l : List (String × String)) (k v k2 : String)
    (hall : ∀ p ∈ l, ¬ (p.1 = k)) :
    lookupOpt (l ++ [(k, v)]) k2 = if k2 = k then some v else lookupOpt l k2 := by
  induction l with
  | nil =>
    show lookupOpt [(k, v)] k2 = _
    by_cases hk : k2 = k
    · simp [lookupOpt, hk]
    · simp [lookupOpt, hk, Ne.symm hk]
  | cons p l2 ih =>
    have hpk : ¬ (p.1 = k) := hall p (by simp)
    rw [List.cons_append, lookupOpt]
    by_cases hp : p.1 = k2
    · have hk : ¬ (k2 = k) := fun he => hpk (hp.trans he)
      rw [if_pos hp, if_neg hk, lookupOpt, if_pos hp]
    · rw [if_neg hp, ih (fun q hq => hall q (by simp [hq]))]
      by_cases hk : k2 = k
      · rw [if_pos hk, if_pos hk]
      · rw [if_neg hk, if_neg hk, lookupOpt, if_neg hp]

theorem lookupOpt_setKey (l : List (String × String)) (k v k2 : String) :
    lookupOpt (setKey l k v) k2 = if k2 = k then some v else lookupOpt l k2 := by
  unfold setKey
  cases hany : l.any (fun p => p.1 = k) with
  | true =>
    rw [if_pos rfl]
    by_cases hk : k2 = k
    · rw [if_pos hk, hk]
      exact lookupOpt_map_replace_eq l k v hany
    · rw [if_neg hk]
      exact lookupOpt_map_replace_ne l k v k2 hk
  | false =>
    rw [if_neg (by simp)]
    exact lookupOpt_append_new l k v k2 (by simpa using List.any_eq_false.1 hany)

theorem lookupOpt_objAssign (t s : List (String × String))
    (hnd : (s.map Prod.fst).Nodup) (k : String) :
    lookupOpt (objAssign t s) k
      = match lookupOpt s k with
        | some v => some v
        | none => lookupOpt t k := by
  induction s generalizing t with
  | nil => rfl
  | cons p s2 ih =>
    rcases p with ⟨k1, v1⟩
    have hnot : k1 ∉ s2.map Prod.fst := (List.nodup_cons.1 hnd).1
    have hnd2 : (s2.map Prod.fst).Nodup := (List.nodup_cons.1 hnd).2
    show lookupOpt (objAssign (setKey t k1 v1) s2) k = _
    rw [ih (setKey t k1 v1) hnd2]
    by_cases hk : k1 = k
    · have hs2 : lookupOpt s2 k = none := by
        subst hk
        clear ih hnd hnd2
        induction s2 with
        | nil => rfl
        | cons q s3 ih3 =>
          rw [lookupOpt, if_neg (fun hq => hnot (by simp [hq]))]
          exact ih3 (fun hm => hnot (by simp [List.mem_cons]; right; simpa using hm))
      rw [hs2, lookupOpt_setKey, if_pos hk.symm, lookupOpt, if_pos hk]
    · rw [lookupOpt, if_neg hk]
      cases hs2 : lookupOpt s2 k with
      | some v => rfl
      | none =>
        rw [lookupOpt_setKey, if_neg (fun hh => hk hh.symm)]

/-- C9: getRequestSign mutates the caller-supplied query object in place
through the Object.assign of line 80: after a call whose token acquisition
succeeded, the query object holds every binding parsed from the path query
string (those values overwriting colliding explicit bindings) while every
other explicit binding is unchanged, and authenticatedCall surfaces the
same mutated object to its own caller. -/
theorem getRequestSign_mutates_query (w : World) (creds : Creds)
    (path method : String) (query : List (String × String)) (body : Json) (tok : String)
    (htok : (getToken w creds).1 = .ok tok)
    (hnd : ((qsParse (pathQueryOf path)).map Prod.fst).Nodup) :
    (getRequestSign w creds path method query body).queryAfter
      = objAssign query (qsParse (pathQueryOf path))
    ∧ (∀ k v, lookupOpt (qsParse (pathQueryOf path)) k = some v →
        lookupOpt ((getRequestSign w creds path method query body).queryAfter) k = some v)
    ∧ (∀ k, lookupOpt (qsParse (pathQueryOf path)) k = none →
        lookupOpt ((getRequestSign w creds path method query body).queryAfter) k
          = lookupOpt query k)
    ∧ (authenticatedCall w creds method path (some query) (some body)).queryAfter
      = (getRequestSign w creds path method query body).queryAfter := by
  have hq : (getRequestSign w creds path method query body).queryAfter
      = objAssign query (qsParse (pathQueryOf path)) := by
    simp only [getRequestSign, htok, mergedQuery]
  refine ⟨hq, ?_, ?_, ?_⟩
  · intro k v hkv
    rw [hq, lookupOpt_objAssign query _ hnd k, hkv]
  · intro k hk
    rw [hq, lookupOpt_objAssign query _ hnd k, hk]
  · unfold authenticatedCall
    rcases hres : (getRequestSign w creds path method query body).result with e | hh <;>
      simp only [Option.getD_some] <;> rw [hres]

/-- Witness for C9 at a concrete path query: the path binding c=3 appears
in the caller-visible query object after the call. -/
theorem getRequestSign_mutates_query_witness :
    (getRequestSign worldMain500 credsT "/p?c=3" "GET" [("a", "1")] (.obj .nil)).queryAfter
      = objAssign [("a", "1")] (qsParse (pathQueryOf "/p?c=3")) :=
  (getRequestSign_mutates_query worldMain500 credsT "/p?c=3" "GET" [("a", "1")] (.obj .nil)
      "tok" rfl (by decide)).1

/-! Order properties of the key comparison, and the canonicalization
claims. -/

theorem charsLe_total (a : List Char) : ∀ b, charsLe a b = true ∨ charsLe b a = true := by
  induction a with
  | nil => intro b; left; rfl
  | cons x xs ih =>
    intro b
    cases b with
    | nil => right; rfl
    | cons y ys =>
      by_cases h1 : x.toNat < y.toNat
      · left
        rw [charsLe, if_pos h1]
      · by_cases h2 : y.toNat < x.toNat
        · right
          rw [charsLe, if_pos h2]
        · rcases ih ys with h | h
          · left
            rw [charsLe, if_neg h1, if_neg h2]
            exact h
          · right
            rw [charsLe, if_neg h2, if_neg h1]
            exact h

theorem charsLe_trans (a : List Char) :
    ∀ b c, charsLe a b = true → charsLe b c = true → charsLe a c = true := by
  induction a with
  | nil => intro b c _ _; rfl
  | cons x xs ih =>
    intro b c h1 h2
    cases b with
    | nil => rw [charsLe] at h1; cases h1
    | cons y ys =>
      cases c with
      | nil => rw [charsLe] at h2; cases h2
      | cons z zs =>
        rw [charsLe] at h1 h2 ⊢
        by_cases hxy : x.toNat < y.toNat
        · by_cases hyz : y.toNat < z.toNat
          · rw [if_pos (show x.toNat < z.toNat by omega)]
          · rw [if_neg hyz] at h2
            by_cases hzy : z.toNat < y.toNat
            · rw [if_pos hzy] at h2
              cases h2
            · rw [if_pos (show x.toNat < z.toNat by omega)]
        · rw [if_neg hxy] at h1
          by_cases hyx : y.toNat < x.toNat
          · rw [if_pos hyx] at h1
            cases h1
          · rw [if_neg hyx] at h1
            by_cases hyz : y.toNat < z.toNat
            · rw [if_pos (show x.toNat < z.toNat by omega)]
            · rw [if_neg hyz] at h2
              by_cases hzy : z.toNat < y.toNat
              · rw [if_pos hzy] at h2
                cases h2
              · rw [if_neg hzy] at h2
                rw [if_neg (show ¬ x.toNat < z.toNat by omega),
                    if_neg (show ¬ z.toNat < x.toNat by omega)]
                exact ih ys zs h1 h2

instance : IsTotal String keyLe := ⟨fun a b => charsLe_total a.data b.data⟩

instance : IsTrans String keyLe := ⟨fun a b c => charsLe_trans a.data b.data c.data⟩

theorem map_lookupD_keys (l : List (String × String)) (h : (l.map Prod.fst).Nodup) :
    (l.map Prod.fst).map (fun k => (k, lookupD l k)) = l := by
  induction l with
  | nil => rfl
  | cons p l2 ih =>
    rcases p with ⟨k1, v1⟩
    have hnot : k1 ∉ l2.map Prod.fst := (List.nodup_cons.1 h).1
    simp only [List.map_cons]
    congr 1
    · simp [lookupD, lookupOpt]
    · have hcongr : ∀ k ∈ l2.map Prod.fst,
          (fun k => (k, lookupD ((k1, v1) :: l2) k)) k = (fun k => (k, lookupD l2 k)) k := by
        intro k hk
        have hne : ¬ (k1 = k) := fun he => hnot (he ▸ hk)
        simp only [lookupD, lookupOpt, if_neg hne]
      rw [List.map_congr_left hcongr, ih (List.nodup_cons.1 h).2]

theorem keys_setKey_nodup (l : List (String × String)) (k v : String)
    (h : (l.map Prod.fst).Nodup) : ((setKey l k v).map Prod.fst).Nodup := by
  unfold setKey
  cases hany : l.any (fun p => p.1 = k) with
  | true =>
    rw [if_pos rfl]
    have : (l.map (fun p => if p.1 = k then (k, v) else p)).map Prod.fst = l.map Prod.fst := by
      rw [List.map_map]
      apply List.map_congr_left
      intro p _
      by_cases hp : p.1 = k
      · simp [hp]
      · simp [hp]
    rw [this]
    exact h
  | false =>
    rw [if_neg (by simp)]
    have hnotin : k ∉ l.map Prod.fst := by
      intro hmem
      rcases List.mem_map.1 hmem with ⟨p, hp, hk⟩
      have hnone := List.any_eq_false.1 hany p hp
      simp only [decide_eq_true_eq] at hnone
      exact hnone hk
    rw [List.map_append]
    simp only [List.map_cons, List.map_nil]
    rw [List.nodup_append]
    refine ⟨h, List.nodup_singleton k, ?_⟩
    intro a ha hb
    simp only [List.mem_singleton] at hb
    exact hnotin (hb ▸ ha)

theorem keys_objAssign_nodup (s : List (String × String)) :
    ∀ t, ((t.map Prod.fst).Nodup) → (((objAssign t s).map Prod.fst).Nodup) := by
  induction s with
  | nil => intro t h; exact h
  | cons p s2 ih => intro t h; exact ih (setKey t p.1 p.2) (keys_setKey_nodup t p.1 p.2 h)

/-- C2 (amended): canonicalization sorts the union of the explicit-query
and path-query keys in ascending code-unit order and rebuilds the query
string from the post-merge query object — the Object.assign of line 80
mutates the explicit query in place — so a binding that exists only in the
path query is RETAINED with its path value (and a colliding key takes the
path value) rather than dropped: the rebuilt list is a permutation of the
merged object and its key sequence is sorted; the final canonical URL is
the uri alone when the rebuilt query string is empty and uri, question
mark, query string otherwise; and the example of explicit query b 2, a 1
merged with path query c=3 rebuilds to a=1&b=2&c=3 with keys in exactly
the order a, b, c. -/
theorem canonicalize_sorted_merged_semantics (path : String)
    (query : List (String × String))
    (hq : (query.map Prod.fst).Nodup) :
    List.Perm (canonicalQuery path query) (mergedQuery path query)
    ∧ (canonicalQuery path query).map Prod.fst
        = List.insertionSort keyLe ((mergedQuery path query).map Prod.fst)
    ∧ List.Sorted keyLe ((canonicalQuery path query).map Prod.fst)
    ∧ canonicalUrl path query
        = (if canonicalQueryString path query ≠ "" then
            uriOf path ++ "?" ++ canonicalQueryString path query
          else uriOf path)
    ∧ canonicalQueryString "/x?c=3" [("b", "2"), ("a", "1")] = "a=1&b=2&c=3"
    ∧ (canonicalQuery "/x?c=3" [("b", "2"), ("a", "1")]).map Prod.fst = ["a", "b", "c"] := by
  have hmnd : ((mergedQuery path query).map Prod.fst).Nodup :=
    keys_objAssign_nodup (qsParse (pathQueryOf path)) query hq
  have hkeys : (canonicalQuery path query).map Prod.fst
      = sortedQueryKeys (mergedQuery path query) := by
    unfold canonicalQuery
    rw [List.map_map]
    rw [show (Prod.fst ∘ fun k => (k, lookupD (mergedQuery path query) k))
        = id from rfl, List.map_id]
  refine ⟨?_, hkeys, ?_, rfl, by decide, by decide⟩
  · have hperm : List.Perm (sortedQueryKeys (mergedQuery path query))
        ((mergedQuery path query).map Prod.fst) :=
      List.perm_insertionSort keyLe ((mergedQuery path query).map Prod.fst)
    have hmapped := hperm.map (fun k => (k, lookupD (mergedQuery path query) k))
    rw [map_lookupD_keys (mergedQuery path query) hmnd] at hmapped
    exact hmapped
  · rw [hkeys]
    exact List.sorted_insertionSort keyLe ((mergedQuery path query).map Prod.fst)

/-- Counterexample to C2 as stated: with an empty explicit query and path
query c=3 the rebuilt query string RETAINS the path-only binding, because
the Object.assign of line 80 mutates the query object in place before the
values are read back on line 84; the value is not dropped, so the
canonical URL differs from the one the claim (and the claim-side rebuild
canonicalUrlSpecClaim) predicts. -/
theorem canonicalize_path_value_not_dropped :
    canonicalQuery "/p?c=3" [] = [("c", "3")]
    ∧ canonicalQueryString "/p?c=3" [] = "c=3"
    ∧ canonicalUrl "/p?c=3" [] = "/p?c=3"
    ∧ canonicalQuerySpecClaim "/p?c=3" [] = []
    ∧ canonicalUrlSpecClaim "/p?c=3" [] = "/p"
    ∧ canonicalUrl "/p?c=3" [] ≠ canonicalUrlSpecClaim "/p?c=3" [] :=
  ⟨by decide, by decide, by decide, by decide, by decide, by decide⟩

/-- Witness for C2 at the example inputs, discharging both no-duplicate
hypotheses. -/
theorem canonicalize_sorted_merged_semantics_witness :
    ((([("b", "2"), ("a", "1")] : List (String × String)).map Prod.fst).Nodup)
    ∧ List.Perm (canonicalQuery "/x?c=3" [("b", "2"), ("a", "1")])
        (mergedQuery "/x?c=3" [("b", "2"), ("a", "1")]) :=
  ⟨by decide,
   (canonicalize_sorted_merged_semantics "/x?c=3" [("b", "2"), ("a", "1")] (by decide)).1⟩

end Tuya
